import Mathlib

/-!
Verification of the memoized model-conversion step and CI trigger of the
openvino_notebooks repository.

The development shallowly embeds:

* the `convert` function of
  `notebooks/dynamicrafter-animating-images/dynamicrafter-animating-images.ipynb`
  (a skip-if-exists disk cache around `ov.convert_model`/`ov.save_model`,
  followed by a manual reset of torch's process-wide class registry), as a
  state transformer over an explicit filesystem/registry/call-log state;
* the `try: demo.queue().launch(debug=True) except Exception:
  demo.queue().launch(debug=True, share=True)` cell at the end of the same
  notebook;
* the `on:` trigger section of the `treon` GitHub Actions workflow,
  including a semantics for its path-filter glob patterns.
-/

namespace DynamiCrafter

/-- A filesystem path, as its list of components. -/
abbrev FsPath := List String

/-- `Path.parent`: the path without its last component. -/
def parentOf (p : FsPath) : FsPath := p.dropLast

/-- The directories `Path.mkdir(parents=True)` guarantees to exist afterwards:
every prefix of the requested directory, the directory itself included. -/
def ancestors (d : FsPath) : List FsPath :=
  (List.range (d.length + 1)).map (fun n => d.take n)

/-- A serialized IR file as written by `ov.save_model`: the converted graph
(identified by a number) plus the `compress_to_fp16` flag the save was
performed with. -/
structure Artifact where
  ir : Nat
  compress_to_fp16 : Bool
deriving DecidableEq

/-- The filesystem: an association list of files (first match wins) and the
list of existing directories. -/
structure FS where
  files : List (FsPath × Artifact)
  dirs : List FsPath
deriving DecidableEq

/-- The file stored at `p`, if any. -/
def FS.fileAt (fs : FS) (p : FsPath) : Option Artifact := fs.files.lookup p

/-- Whether directory `d` exists. -/
def FS.dirExists (fs : FS) (d : FsPath) : Bool := decide (d ∈ fs.dirs)

/-- `Path.exists`: a file or a directory is present at `p`. -/
def FS.pathExists (fs : FS) (p : FsPath) : Bool :=
  (fs.fileAt p).isSome || fs.dirExists p

/-- `d.mkdir(parents=True, exist_ok=True)`: afterwards `d` and all its
ancestors exist; an already existing directory is not an error. -/
def FS.mkdirParents (fs : FS) (d : FsPath) : FS :=
  { fs with dirs := ancestors d ++ fs.dirs }

/-- `ov.save_model` serializing to `p`: the file at `p` becomes `a`. -/
def FS.writeFile (fs : FS) (p : FsPath) (a : Artifact) : FS :=
  { fs with files := (p, a) :: fs.files }

/-- A Python value passed as the `input_shape` argument of `convert`:
`None` (the default), an integer, or a list of per-dimension sizes
(`-1` meaning dynamic). -/
inductive ShapeArg where
  | noneArg : ShapeArg
  | intArg : Int → ShapeArg
  | listArg : List Int → ShapeArg
deriving DecidableEq

/-- Python truthiness of a `ShapeArg`; `if not input_shape` tests its
negation, so `None`, `0` and the empty list are all falsy. -/
def ShapeArg.truthy : ShapeArg → Bool
  | .noneArg => false
  | .intArg n => n != 0
  | .listArg l => !l.isEmpty

/-- One invocation of `ov.convert_model`, as observed by a stub converter:
the module, the example input, the explicit `input=` argument (`none` when
the argument was omitted), and whether torch gradient tracking was enabled
at call time. -/
structure ConvCall where
  module : Nat
  example_input : Nat
  inputArg : Option ShapeArg
  gradEnabled : Bool
deriving DecidableEq

/-- Process-wide state visible to `convert`: the filesystem, the torch JIT
class registry (entries leaked by the converter, reset by the cleanup
lines), and the log of converter invocations (the call counter of a stub
converter). -/
structure World where
  fs : FS
  registry : List Nat
  calls : List ConvCall
deriving DecidableEq

/-- The external conversion routine `ov.convert_model`: given the gradient
tracking flag in effect, the module, the example input and the optional
explicit `input=` argument, it either returns a converted graph or raises
an error; it additionally leaks entries into torch's class registry. -/
abbrev Converter := Bool → Nat → Nat → Option ShapeArg → Except String Nat × List Nat

/-- The `input=` argument actually passed to `ov.convert_model`:
`if not input_shape` omits the argument, otherwise `input_shape` is
forwarded. -/
def converterArg (input_shape : ShapeArg) : Option ShapeArg :=
  if input_shape.truthy then some input_shape else none

/-- Shallow embedding of the notebook's `convert` function:

```
def convert(model, xml_path, example_input, input_shape=None):
    xml_path = Path(xml_path)
    if not xml_path.exists():
        xml_path.parent.mkdir(parents=True, exist_ok=True)
        with torch.no_grad():
            if not input_shape:
                converted_model = ov.convert_model(model, example_input=example_input)
            else:
                converted_model = ov.convert_model(model, example_input=example_input, input=input_shape)
        ov.save_model(converted_model, xml_path, compress_to_fp16=False)
        # cleanup memory
        torch._C._jit_clear_class_registry()
        torch.jit._recursive.concrete_type_store = torch.jit._recursive.ConcreteTypeStore()
        torch.jit._state._clear_class_state()
```

The converter is a parameter; the result is the Python return/raise outcome
paired with the final process state. Inside `with torch.no_grad():` the
gradient flag passed to the converter is `false`. On a converter error the
exception propagates: the save and the three cleanup lines do not run, so
the leaked registry entries remain. On success the cleanup lines reset the
registry to a fresh empty state. -/
def convert (conv : Converter) (w : World) (model : Nat) (xml_path : FsPath)
    (example_input : Nat) (input_shape : ShapeArg := ShapeArg.noneArg) :
    Except String Unit × World :=
  if w.fs.pathExists xml_path then
    (Except.ok (), w)
  else
    let fs1 := w.fs.mkdirParents (parentOf xml_path)
    let arg := converterArg input_shape
    match conv false model example_input arg with
    | (Except.error err, leaked) =>
        (Except.error err,
         { w with
             fs := fs1
             registry := w.registry ++ leaked
             calls := w.calls ++ [⟨model, example_input, arg, false⟩] })
    | (Except.ok ir, _leaked) =>
        (Except.ok (),
         { fs := fs1.writeFile xml_path ⟨ir, false⟩
           registry := []
           calls := w.calls ++ [⟨model, example_input, arg, false⟩] })

/-- The options passed to `demo.queue().launch(...)`. -/
structure LaunchOpts where
  debug : Bool
  share : Bool
deriving DecidableEq

/-- Shallow embedding of the notebook's final cell

```
try:
    demo.queue().launch(debug=True)
except Exception:
    demo.queue().launch(debug=True, share=True)
```

The behaviour of `launch` is a parameter (either it returns or it raises,
modelled by `Except`). The result is the list of attempted launches, in
order, together with the outcome that reaches the caller. -/
def runDemoLaunch (launch : LaunchOpts → Except String Unit) :
    List LaunchOpts × Except String Unit :=
  match launch { debug := true, share := false } with
  | Except.ok _ => ([{ debug := true, share := false }], Except.ok ())
  | Except.error _ =>
      ([{ debug := true, share := false }, { debug := true, share := true }],
       launch { debug := true, share := true })

end DynamiCrafter

namespace TreonCI

/-- One glob token of a GitHub Actions path filter: a literal character,
`*` (any run of characters without `/`), or `**` (any run of characters). -/
inductive GlobTok where
  | lit : Char → GlobTok
  | one : GlobTok
  | many : GlobTok
deriving DecidableEq

/-- Parse a path-filter pattern into glob tokens (`**` before `*`). -/
def parseGlob : List Char → List GlobTok
  | [] => []
  | '*' :: '*' :: rest => GlobTok.many :: parseGlob rest
  | '*' :: rest => GlobTok.one :: parseGlob rest
  | c :: rest => GlobTok.lit c :: parseGlob rest

/-- Glob matching: a literal must match the next character; `*` consumes any
slash-free segment; `**` consumes any segment. -/
def globMatch : List GlobTok → List Char → Bool
  | [], cs => cs.isEmpty
  | GlobTok.lit _ :: _, [] => false
  | GlobTok.lit c :: ps, d :: cs => c == d && globMatch ps cs
  | GlobTok.one :: ps, cs =>
      (List.range (cs.length + 1)).any
        (fun n => ((cs.take n).all (fun d => d != '/')) && globMatch ps (cs.drop n))
  | GlobTok.many :: ps, cs =>
      (List.range (cs.length + 1)).any (fun n => globMatch ps (cs.drop n))

/-- The `paths:` filters declared for both `push` and `pull_request` in the
`treon` workflow. -/
def pathFilters : List String :=
  ["notebooks/**.ipynb", "notebooks/**.py", "requirements.txt",
   ".ci/*", ".github/workflows/*.yml", ".github/workflows/.env"]

/-- The `branches:` filters declared for both `push` and `pull_request`. -/
def branchFilters : List String := ["main", "latest"]

/-- Whether a changed file path matches one path-filter pattern. -/
def matchesFilter (pat : String) (path : String) : Bool :=
  globMatch (parseGlob pat.toList) path.toList

/-- Whether a changed file path matches any declared path filter. -/
def matchesAnyFilter (path : String) : Bool :=
  pathFilters.any (fun pat => matchesFilter pat path)

/-- An event the `on:` section of the workflow can react to: a manual
dispatch, a push to a branch with a set of changed files, or a pull request
targeting a branch with a set of changed files. -/
inductive CIEvent where
  | workflow_dispatch : CIEvent
  | push : String → List String → CIEvent
  | pull_request : String → List String → CIEvent

/-- Semantics of the `on:` section of the `treon` workflow: `push` and
`pull_request` run only for the declared branches and only when some
changed file matches a declared path filter; `workflow_dispatch` always
runs. -/
def treonTriggered : CIEvent → Bool
  | CIEvent.workflow_dispatch => true
  | CIEvent.push br changed =>
      decide (br ∈ branchFilters) && changed.any matchesAnyFilter
  | CIEvent.pull_request br changed =>
      decide (br ∈ branchFilters) && changed.any matchesAnyFilter

end TreonCI

namespace DynamiCrafter

lemma fileAt_writeFile_self (fs : FS) (p : FsPath) (a : Artifact) :
    (fs.writeFile p a).fileAt p = some a := by
  simp [FS.writeFile, FS.fileAt, List.lookup]

lemma fileAt_writeFile_ne (fs : FS) (p q : FsPath) (a : Artifact) (h : q ≠ p) :
    (fs.writeFile p a).fileAt q = fs.fileAt q := by
  have hb : (q == p) = false := beq_eq_false_iff_ne.mpr h
  simp [FS.writeFile, FS.fileAt, List.lookup, hb]

lemma fileAt_mkdirParents (fs : FS) (d : FsPath) (p : FsPath) :
    (fs.mkdirParents d).fileAt p = fs.fileAt p := rfl

lemma dirExists_writeFile (fs : FS) (p : FsPath) (a : Artifact) (q : FsPath) :
    (fs.writeFile p a).dirExists q = fs.dirExists q := rfl

lemma dirExists_mkdirParents (fs : FS) (d q : FsPath) :
    (fs.mkdirParents d).dirExists q
      = (decide (q ∈ ancestors d) || fs.dirExists q) := by
  simp [FS.mkdirParents, FS.dirExists, List.mem_append]

lemma self_mem_ancestors (d : FsPath) : d ∈ ancestors d := by
  simp only [ancestors, List.mem_map, List.mem_range]
  exact ⟨d.length, Nat.lt_succ_self _, List.take_length _⟩

lemma fileAt_eq_none_of_pathExists_false (fs : FS) (p : FsPath)
    (h : fs.pathExists p = false) : fs.fileAt p = none := by
  unfold FS.pathExists at h
  cases hf : fs.fileAt p with
  | none => rfl
  | some a => rw [hf] at h; simp at h

lemma pathExists_of_fileAt (fs : FS) (p : FsPath) (a : Artifact)
    (h : fs.fileAt p = some a) : fs.pathExists p = true := by
  simp [FS.pathExists, h]

lemma convert_hit (conv : Converter) (w : World) (m : Nat) (p : FsPath)
    (e : Nat) (s : ShapeArg) (h : w.fs.pathExists p = true) :
    convert conv w m p e s = (Except.ok (), w) := by
  simp [convert, h]

lemma convert_miss_ok (conv : Converter) (w : World) (m : Nat) (p : FsPath)
    (e : Nat) (s : ShapeArg) (ir : Nat) (leaked : List Nat)
    (hmiss : w.fs.pathExists p = false)
    (hconv : conv false m e (converterArg s) = (Except.ok ir, leaked)) :
    convert conv w m p e s =
      (Except.ok (),
       { fs := (w.fs.mkdirParents (parentOf p)).writeFile p ⟨ir, false⟩
         registry := []
         calls := w.calls ++ [⟨m, e, converterArg s, false⟩] }) := by
  simp [convert, hmiss, hconv]

lemma convert_miss_err (conv : Converter) (w : World) (m : Nat) (p : FsPath)
    (e : Nat) (s : ShapeArg) (err : String) (leaked : List Nat)
    (hmiss : w.fs.pathExists p = false)
    (hconv : conv false m e (converterArg s) = (Except.error err, leaked)) :
    convert conv w m p e s =
      (Except.error err,
       { w with
           fs := w.fs.mkdirParents (parentOf p)
           registry := w.registry ++ leaked
           calls := w.calls ++ [⟨m, e, converterArg s, false⟩] }) := by
  simp [convert, hmiss, hconv]

lemma pathExists_after_ok (conv : Converter) (w : World) (m : Nat)
    (p : FsPath) (e : Nat) (s : ShapeArg)
    (h : (convert conv w m p e s).fst = Except.ok ()) :
    (convert conv w m p e s).snd.fs.pathExists p = true := by
  by_cases hp : w.fs.pathExists p = true
  · rw [convert_hit conv w m p e s hp]
    exact hp
  · have hmiss : w.fs.pathExists p = false := by
      simpa using hp
    cases hc : conv false m e (converterArg s) with
    | mk r leaked =>
      cases r with
      | error err =>
          rw [convert_miss_err conv w m p e s err leaked hmiss hc] at h
          simp at h
      | ok ir =>
          rw [convert_miss_ok conv w m p e s ir leaked hmiss hc]
          simp [FS.pathExists, fileAt_writeFile_self]

/-- C1: once a call `convert(module, p, exampleInput)` has completed
successfully, every subsequent call to `convert` with the same destination
path `p` returns immediately with `Ok` and leaves the whole process state —
filesystem, registry, and converter call log — unchanged; in particular the
external conversion routine is not invoked again (the call log does not
grow), so the expensive conversion is performed at most once per path and
the second call is a no-op. -/
theorem convert_cache_idempotent (conv1 conv2 : Converter) (w : World)
    (m1 m2 : Nat) (p : FsPath) (e1 e2 : Nat) (s1 s2 : ShapeArg)
    (h : (convert conv1 w m1 p e1 s1).fst = Except.ok ()) :
    convert conv2 (convert conv1 w m1 p e1 s1).snd m2 p e2 s2 =
      (Except.ok (), (convert conv1 w m1 p e1 s1).snd) :=
  convert_hit conv2 _ m2 p e2 s2 (pathExists_after_ok conv1 w m1 p e1 s1 h)

/-- Witness for C1 at a concrete stub converter and empty filesystem. -/
theorem convert_cache_idempotent_witness :
    convert (fun _ _ _ _ => (Except.ok 3, ([7] : List Nat)))
        (convert (fun _ m _ _ => (Except.ok (m + 100), ([m] : List Nat)))
          ⟨⟨[], []⟩, [], []⟩ 1 ["models", "x.xml"] 5 ShapeArg.noneArg).snd
        2 ["models", "x.xml"] 6 ShapeArg.noneArg =
      (Except.ok (),
       (convert (fun _ m _ _ => (Except.ok (m + 100), ([m] : List Nat)))
          ⟨⟨[], []⟩, [], []⟩ 1 ["models", "x.xml"] 5 ShapeArg.noneArg).snd) :=
  convert_cache_idempotent _ _ ⟨⟨[], []⟩, [], []⟩ 1 2 ["models", "x.xml"]
    5 6 ShapeArg.noneArg ShapeArg.noneArg rfl

/-- C2: once a `convert` call with source module `m1` has left an artifact
file at path `p`, a later `convert` call with a different module `m2` and
the same path leaves the artifact at `p` unchanged — indeed the whole state
is unchanged, so nothing about `m2` (no hash, no timestamp) influences the
on-disk artifact and the content produced from `m1` is silently reused. -/
theorem convert_stale_artifact_reuse (conv1 conv2 : Converter) (w : World)
    (m1 m2 : Nat) (p : FsPath) (e1 e2 : Nat) (s1 s2 : ShapeArg) (a : Artifact)
    (hm : m1 ≠ m2)
    (hfile : (convert conv1 w m1 p e1 s1).snd.fs.fileAt p = some a) :
    (convert conv2 (convert conv1 w m1 p e1 s1).snd m2 p e2 s2).snd =
        (convert conv1 w m1 p e1 s1).snd ∧
    (convert conv2 (convert conv1 w m1 p e1 s1).snd m2 p e2 s2).snd.fs.fileAt p
        = some a := by
  rw [convert_hit conv2 ((convert conv1 w m1 p e1 s1).snd) m2 p e2 s2
      (pathExists_of_fileAt _ _ _ hfile)]
  exact ⟨rfl, hfile⟩

/-- Witness for C2: module 1 produces the artifact, module 2 reuses it. -/
theorem convert_stale_artifact_reuse_witness :
    (convert (fun _ m _ _ => (Except.ok (m * 10), ([] : List Nat)))
        (convert (fun _ m _ _ => (Except.ok (m * 10), ([] : List Nat)))
          ⟨⟨[], []⟩, [], []⟩ 1 ["models", "x.xml"] 5 ShapeArg.noneArg).snd
        2 ["models", "x.xml"] 6 ShapeArg.noneArg).snd.fs.fileAt
      ["models", "x.xml"] = some ⟨10, false⟩ :=
  (convert_stale_artifact_reuse _ _ ⟨⟨[], []⟩, [], []⟩ 1 2 ["models", "x.xml"]
    5 6 ShapeArg.noneArg ShapeArg.noneArg ⟨10, false⟩ (by decide) (by decide)).2

/-- C3: on a call where nothing exists at the destination path `p` and the
parent directory of `p` does not exist, after the call the parent directory
exists; the creation is recursive (every ancestor of the parent exists
afterwards) and idempotent in the sense of `exist_ok=True` (every directory
that existed before still exists and no error arises from it). This holds
whether or not the conversion itself succeeds, since `mkdir` runs first. -/
theorem convert_creates_parent_dir (conv : Converter) (w : World) (m : Nat)
    (p : FsPath) (e : Nat) (s : ShapeArg)
    (hmiss : w.fs.pathExists p = false)
    (hparent : w.fs.dirExists (parentOf p) = false) :
    (convert conv w m p e s).snd.fs.dirExists (parentOf p) = true ∧
    (∀ q, q ∈ ancestors (parentOf p) →
        (convert conv w m p e s).snd.fs.dirExists q = true) ∧
    (∀ q, w.fs.dirExists q = true →
        (convert conv w m p e s).snd.fs.dirExists q = true) := by
  have key : ∀ q, q ∈ ancestors (parentOf p) ∨ w.fs.dirExists q = true →
      (convert conv w m p e s).snd.fs.dirExists q = true := by
    intro q hq
    cases hc : conv false m e (converterArg s) with
    | mk r leaked =>
      cases r with
      | error err =>
          rw [convert_miss_err conv w m p e s err leaked hmiss hc]
          rcases hq with hq | hq <;>
            simp [dirExists_mkdirParents, hq]
      | ok ir =>
          rw [convert_miss_ok conv w m p e s ir leaked hmiss hc]
          rcases hq with hq | hq <;>
            simp [dirExists_writeFile, dirExists_mkdirParents, hq]
  exact ⟨key _ (Or.inl (self_mem_ancestors _)),
         fun q hq => key q (Or.inl hq),
         fun q hq => key q (Or.inr hq)⟩

/-- Witness for C3 on an empty filesystem. -/
theorem convert_creates_parent_dir_witness :
    (convert (fun _ m _ _ => (Except.ok m, ([] : List Nat)))
        ⟨⟨[], []⟩, [], []⟩ 1 ["models", "x.xml"] 5
        ShapeArg.noneArg).snd.fs.dirExists ["models"] = true :=
  (convert_creates_parent_dir _ ⟨⟨[], []⟩, [], []⟩ 1 ["models", "x.xml"] 5
    ShapeArg.noneArg (by decide) (by decide)).1

/-- C4: if on a cache miss the external converter raises an error, `convert`
propagates that exact error to its caller (no translation), invokes the
converter exactly once (no retry: the call log grows by exactly one entry),
and does not create the destination file — the artifact stays Missing —
although the parent directory has already been created. -/
theorem convert_error_propagation (conv : Converter) (w : World) (m : Nat)
    (p : FsPath) (e : Nat) (s : ShapeArg) (err : String) (leaked : List Nat)
    (hmiss : w.fs.pathExists p = false)
    (herr : conv false m e (converterArg s) = (Except.error err, leaked)) :
    (convert conv w m p e s).fst = Except.error err ∧
    (convert conv w m p e s).snd.fs.fileAt p = none ∧
    (convert conv w m p e s).snd.calls
        = w.calls ++ [⟨m, e, converterArg s, false⟩] ∧
    (convert conv w m p e s).snd.fs.dirExists (parentOf p) = true := by
  rw [convert_miss_err conv w m p e s err leaked hmiss herr]
  refine ⟨rfl, ?_, rfl, ?_⟩
  · rw [fileAt_mkdirParents]
    exact fileAt_eq_none_of_pathExists_false w.fs p hmiss
  · simp [dirExists_mkdirParents, self_mem_ancestors]

/-- Witness for C4 with a stub converter that always raises. -/
theorem convert_error_propagation_witness :
    (convert (fun _ _ _ _ => (Except.error "shape mismatch", ([] : List Nat)))
        ⟨⟨[], []⟩, [], []⟩ 1 ["models", "x.xml"] 5 ShapeArg.noneArg).fst
      = Except.error "shape mismatch" :=
  (convert_error_propagation _ ⟨⟨[], []⟩, [], []⟩ 1 ["models", "x.xml"] 5
    ShapeArg.noneArg "shape mismatch" [] (by decide) rfl).1

/-- C5: the only transition `convert` can cause on any artifact path `q` is
Missing → Present: every file present before the call is still present with
the same content afterwards (no delete, no truncate, no overwrite), and if
the file at `q` changed at all then `q` is the call's own destination path,
it was Missing before, the call returned `Ok`, and the new content is the
successful converter output saved uncompressed. -/
theorem convert_one_way_transition (conv : Converter) (w : World) (m : Nat)
    (p : FsPath) (e : Nat) (s : ShapeArg) (q : FsPath) :
    (∀ a, w.fs.fileAt q = some a →
        (convert conv w m p e s).snd.fs.fileAt q = some a) ∧
    ((convert conv w m p e s).snd.fs.fileAt q ≠ w.fs.fileAt q →
      q = p ∧ w.fs.fileAt p = none ∧
      (convert conv w m p e s).fst = Except.ok () ∧
      ∃ ir leaked, conv false m e (converterArg s) = (Except.ok ir, leaked) ∧
        (convert conv w m p e s).snd.fs.fileAt p = some ⟨ir, false⟩) := by
  by_cases hp : w.fs.pathExists p = true
  · rw [convert_hit conv w m p e s hp]
    exact ⟨fun a ha => ha, fun hne => absurd rfl hne⟩
  · have hmiss : w.fs.pathExists p = false := by
      simpa using hp
    cases hc : conv false m e (converterArg s) with
    | mk r leaked =>
      cases r with
      | error err =>
          rw [convert_miss_err conv w m p e s err leaked hmiss hc]
          exact ⟨fun a ha => ha, fun hne => absurd rfl hne⟩
      | ok ir =>
          rw [convert_miss_ok conv w m p e s ir leaked hmiss hc]
          by_cases hqp : q = p
          · subst hqp
            have hnone : w.fs.fileAt q = none :=
              fileAt_eq_none_of_pathExists_false w.fs q hmiss
            constructor
            · intro a ha
              rw [hnone] at ha
              exact absurd ha (by simp)
            · intro _
              refine ⟨rfl, hnone, rfl, ir, leaked, rfl, ?_⟩
              simp [fileAt_writeFile_self, fileAt_mkdirParents]
          · have hpres : ((w.fs.mkdirParents (parentOf p)).writeFile p
                ⟨ir, false⟩).fileAt q = w.fs.fileAt q := by
              rw [fileAt_writeFile_ne _ _ _ _ hqp, fileAt_mkdirParents]
            constructor
            · intro a ha
              rw [hpres]
              exact ha
            · intro hne
              exact absurd hpres hne

/-- Witness for C5: an artifact present at another path survives a call. -/
theorem convert_one_way_transition_witness :
    (convert (fun _ m _ _ => (Except.ok m, ([] : List Nat)))
        ⟨⟨[(["models", "y.xml"], ⟨9, true⟩)], []⟩, [], []⟩ 1
        ["models", "x.xml"] 5 ShapeArg.noneArg).snd.fs.fileAt
      ["models", "y.xml"] = some ⟨9, true⟩ :=
  (convert_one_way_transition _ ⟨⟨[(["models", "y.xml"], ⟨9, true⟩)], []⟩, [], []⟩
    1 ["models", "x.xml"] 5 ShapeArg.noneArg ["models", "y.xml"]).1
    ⟨9, true⟩ (by decide)

/-- C6: on a cache miss with a successful conversion, `convert` invokes the
external converter exactly once with gradient tracking disabled (the logged
call has `gradEnabled = false`, reflecting the `torch.no_grad()` scope) and
serializes the converter's result to the destination path in full precision:
the saved artifact records `compress_to_fp16 = false`. -/
theorem convert_miss_full_precision (conv : Converter) (w : World) (m : Nat)
    (p : FsPath) (e : Nat) (s : ShapeArg) (ir : Nat) (leaked : List Nat)
    (hmiss : w.fs.pathExists p = false)
    (hconv : conv false m e (converterArg s) = (Except.ok ir, leaked)) :
    (convert conv w m p e s).fst = Except.ok () ∧
    (convert conv w m p e s).snd.fs.fileAt p = some ⟨ir, false⟩ ∧
    (convert conv w m p e s).snd.calls
        = w.calls ++ [⟨m, e, converterArg s, false⟩] := by
  rw [convert_miss_ok conv w m p e s ir leaked hmiss hconv]
  exact ⟨rfl, fileAt_writeFile_self _ _ _, rfl⟩

/-- Witness for C6 at a concrete stub converter. -/
theorem convert_miss_full_precision_witness :
    (convert (fun _ m _ _ => (Except.ok (m + 41), ([] : List Nat)))
        ⟨⟨[], []⟩, [], []⟩ 1 ["models", "x.xml"] 5
        ShapeArg.noneArg).snd.fs.fileAt ["models", "x.xml"]
      = some ⟨42, false⟩ :=
  (convert_miss_full_precision _ ⟨⟨[], []⟩, [], []⟩ 1 ["models", "x.xml"] 5
    ShapeArg.noneArg 42 [] (by decide) rfl).2.1

/-- C7: after every completed cache-miss call (a successful conversion) the
process-wide torch class-registry state is reset to a fresh empty state,
whatever entries the converter leaked, so the registry does not grow across
sequential conversion calls; on a cache hit no registry state is touched. -/
theorem convert_registry_cleanup (conv : Converter) (w : World) (m : Nat)
    (p : FsPath) (e : Nat) (s : ShapeArg) :
    (∀ ir leaked, w.fs.pathExists p = false →
        conv false m e (converterArg s) = (Except.ok ir, leaked) →
        (convert conv w m p e s).snd.registry = []) ∧
    (w.fs.pathExists p = true →
        (convert conv w m p e s).snd.registry = w.registry) := by
  constructor
  · intro ir leaked hmiss hconv
    rw [convert_miss_ok conv w m p e s ir leaked hmiss hconv]
  · intro hhit
    rw [convert_hit conv w m p e s hhit]

/-- Witness for C7: a leaking stub converter still leaves an empty registry. -/
theorem convert_registry_cleanup_witness :
    (convert (fun _ m _ _ => (Except.ok m, ([m, m + 1] : List Nat)))
        ⟨⟨[], []⟩, [4], []⟩ 1 ["models", "x.xml"] 5
        ShapeArg.noneArg).snd.registry = [] :=
  (convert_registry_cleanup _ ⟨⟨[], []⟩, [4], []⟩ 1 ["models", "x.xml"] 5
    ShapeArg.noneArg).1 1 [1, 2] (by decide) rfl

end DynamiCrafter

namespace DynamiCrafter

/-- C8: if launching the demo UI server raises any exception whatsoever, the
exception is caught and not re-raised, and exactly one fallback launch with
public sharing enabled (`share=True`, still `debug=True`) is attempted; the
outcome reaching the caller is exactly the fallback attempt's outcome,
independent of the original exception, so every exception type triggers the
same fallback. -/
theorem demo_launch_fallback (launch : LaunchOpts → Except String Unit)
    (err : String)
    (h : launch { debug := true, share := false } = Except.error err) :
    runDemoLaunch launch =
      ([{ debug := true, share := false }, { debug := true, share := true }],
       launch { debug := true, share := true }) := by
  simp [runDemoLaunch, h]

/-- Witness for C8: a stub `launch` that fails without sharing and succeeds
with sharing attempts exactly the two launches. -/
theorem demo_launch_fallback_witness :
    runDemoLaunch
        (fun o => if o.share then Except.ok ()
                  else Except.error "OSError: cannot find empty port") =
      ([{ debug := true, share := false }, { debug := true, share := true }],
       Except.ok ()) :=
  demo_launch_fallback _ "OSError: cannot find empty port" rfl

/-- C10: `convert` tests the `input_shape` override by Python truthiness, so
every falsy override value (`None`, `0`, the empty list) is treated exactly
as if no override were given — the call behaves identically to the
default-argument call and the converter is invoked without an explicit
`input=` argument — while a truthy `input_shape` is forwarded unchanged as
the `input=` argument. -/
theorem convert_shape_truthiness (conv : Converter) (w : World) (m : Nat)
    (p : FsPath) (e : Nat) (s : ShapeArg) :
    (s.truthy = false →
      converterArg s = none ∧
      convert conv w m p e s = convert conv w m p e ShapeArg.noneArg) ∧
    (s.truthy = true → converterArg s = some s) := by
  constructor
  · intro h
    have harg : converterArg s = none := by
      simp [converterArg, h]
    refine ⟨harg, ?_⟩
    unfold convert
    rw [show converterArg s = converterArg ShapeArg.noneArg from by
      rw [harg]; rfl]
  · intro h
    simp [converterArg, h]

/-- Witness for C10: the falsy override `0` behaves as the default `None`. -/
theorem convert_shape_truthiness_witness :
    convert (fun _ m _ _ => (Except.ok m, ([] : List Nat)))
        ⟨⟨[], []⟩, [], []⟩ 1 ["models", "x.xml"] 5 (ShapeArg.intArg 0) =
      convert (fun _ m _ _ => (Except.ok m, ([] : List Nat)))
        ⟨⟨[], []⟩, [], []⟩ 1 ["models", "x.xml"] 5 ShapeArg.noneArg :=
  ((convert_shape_truthiness _ ⟨⟨[], []⟩, [], []⟩ 1 ["models", "x.xml"] 5
    (ShapeArg.intArg 0)).1 (by decide)).2

end DynamiCrafter

namespace TreonCI

lemma globMatch_lit (c : Char) (ps : List GlobTok) (cs : List Char) :
    globMatch (GlobTok.lit c :: ps) (c :: cs) = globMatch ps cs := by
  simp [globMatch]

lemma globMatch_many_append (ps : List GlobTok) (xs cs : List Char)
    (h : globMatch ps cs = true) :
    globMatch (GlobTok.many :: ps) (xs ++ cs) = true := by
  have hlen : xs.length < (xs ++ cs).length + 1 := by
    simp [List.length_append]
    omega
  simp only [globMatch, List.any_eq_true, List.mem_range]
  exact ⟨xs.length, hlen, by rw [List.drop_left]; exact h⟩

lemma notebook_matches (s : String) :
    matchesAnyFilter ("notebooks/" ++ s ++ ".ipynb") = true := by
  have hpath : ("notebooks/" ++ s ++ ".ipynb").toList
      = 'n' :: 'o' :: 't' :: 'e' :: 'b' :: 'o' :: 'o' :: 'k' :: 's' :: '/' ::
        (s.toList ++ ['.', 'i', 'p', 'y', 'n', 'b']) := by
    show (("notebooks/" ++ s) ++ ".ipynb").data = _
    rw [String.data_append, String.data_append]
    simp [String.toList]
  have hparse : parseGlob ("notebooks/**.ipynb".toList)
      = [GlobTok.lit 'n', GlobTok.lit 'o', GlobTok.lit 't', GlobTok.lit 'e',
         GlobTok.lit 'b', GlobTok.lit 'o', GlobTok.lit 'o', GlobTok.lit 'k',
         GlobTok.lit 's', GlobTok.lit '/', GlobTok.many, GlobTok.lit '.',
         GlobTok.lit 'i', GlobTok.lit 'p', GlobTok.lit 'y', GlobTok.lit 'n',
         GlobTok.lit 'b'] := rfl
  unfold matchesAnyFilter pathFilters
  simp only [List.any_cons, List.any_nil, Bool.or_eq_true]
  left
  unfold matchesFilter
  rw [hparse, hpath]
  rw [globMatch_lit, globMatch_lit, globMatch_lit, globMatch_lit, globMatch_lit,
      globMatch_lit, globMatch_lit, globMatch_lit, globMatch_lit, globMatch_lit]
  exact globMatch_many_append _ s.toList ['.', 'i', 'p', 'y', 'n', 'b'] (by decide)

/-- C9: the `treon` workflow's trigger scoping. A push or pull request whose
changed files all fall outside the declared path filters does not trigger
the workflow; neither does one targeting a branch other than `main` or
`latest`; and a push or pull request to `main` or `latest` whose changes
include any `.ipynb` file under the watched `notebooks/` directory does
trigger it. -/
theorem treon_trigger_scoping :
    (∀ br changed, changed.all (fun f => !matchesAnyFilter f) = true →
        treonTriggered (CIEvent.push br changed) = false ∧
        treonTriggered (CIEvent.pull_request br changed) = false) ∧
    (∀ br changed, br ∉ branchFilters →
        treonTriggered (CIEvent.push br changed) = false ∧
        treonTriggered (CIEvent.pull_request br changed) = false) ∧
    (∀ br s rest, br ∈ branchFilters →
        treonTriggered
          (CIEvent.push br (("notebooks/" ++ s ++ ".ipynb") :: rest)) = true ∧
        treonTriggered
          (CIEvent.pull_request br (("notebooks/" ++ s ++ ".ipynb") :: rest))
          = true) := by
  refine ⟨?_, ?_, ?_⟩
  · intro br changed hall
    have hany : changed.any matchesAnyFilter = false := by
      cases hA : changed.any matchesAnyFilter with
      | false => rfl
      | true =>
          rw [List.any_eq_true] at hA
          obtain ⟨x, hx, hmx⟩ := hA
          have hfx := List.all_eq_true.mp hall x hx
          simp [hmx] at hfx
    constructor <;> simp [treonTriggered, hany]
  · intro br changed hbr
    constructor <;> simp [treonTriggered, hbr]
  · intro br s rest hbr
    constructor <;>
      simp [treonTriggered, hbr, List.any_cons, notebook_matches]

/-- Witness for C9: a change to `README.md` alone does not trigger the
workflow, while a notebook change on `main` does. -/
theorem treon_trigger_scoping_witness :
    treonTriggered (CIEvent.push "main" ["README.md"]) = false ∧
    treonTriggered
      (CIEvent.pull_request "main"
        (("notebooks/" ++ "271-dynamicrafter" ++ ".ipynb") :: [])) = true :=
  ⟨(treon_trigger_scoping.1 "main" ["README.md"] (by decide)).1,
   (treon_trigger_scoping.2.2 "main" "271-dynamicrafter" [] (by decide)).2⟩

end TreonCI
